import Mathlib

/-!
Verification of the connection- and stream-level engine of
`tornado_http2/connection.py` (an HTTP/2 endpoint core): the binary frame
codec, the connection dispatch loop (stream table, SETTINGS handling, stream
id allocation) and the per-stream state machine (inbound HEADERS / DATA /
RST_STREAM handling, outbound content-length enforcement).

Shallow embedding conventions:
* bytes are `Nat` values (`< 256` where a bound matters, stated explicitly);
* byte strings are `List Nat`;
* Python exceptions are `Except` / explicit error fields;
* the transport is a byte list (reads) or an accumulated frame list (writes);
* external collaborators (the HPACK codec, the tornado delegate, the
  `responses` reason-phrase table) are parameters or event lists, mirroring
  the spec's "out of scope, treated as external collaborators".
-/

namespace TornadoHttp2

/-! ## Byte helpers: big-endian fields of `struct.pack('>iBBi', ...)` -/

/-- Big-endian encoding of `n` on `k` bytes (the low `8*k` bits of `n`),
as produced by `struct.pack` for the nonnegative in-range values used by
`connection.py`. -/
def beBytes : Nat → Nat → List Nat
  | 0, _ => []
  | k + 1, n => beBytes k (n / 256) ++ [n % 256]

/-- Big-endian decoding of a byte list, as done by `struct.unpack` on
nonnegative in-range values. -/
def fromBE (l : List Nat) : Nat :=
  l.foldl (fun acc b => acc * 256 + b) 0

theorem beBytes_length (k n : Nat) : (beBytes k n).length = k := by
  induction k generalizing n with
  | zero => rfl
  | succ k ih => simp [beBytes, ih]

theorem fromBE_append_singleton (l : List Nat) (b : Nat) :
    fromBE (l ++ [b]) = fromBE l * 256 + b := by
  simp [fromBE, List.foldl_append]

theorem fromBE_beBytes (k n : Nat) : fromBE (beBytes k n) = n % 256 ^ k := by
  induction k generalizing n with
  | zero => simp [beBytes, fromBE, Nat.mod_one]
  | succ k ih =>
    rw [beBytes, fromBE_append_singleton, ih]
    rw [pow_succ', Nat.mod_mul]
    omega

theorem fromBE_beBytes_of_lt {k n : Nat} (h : n < 256 ^ k) :
    fromBE (beBytes k n) = n := by
  rw [fromBE_beBytes, Nat.mod_eq_of_lt h]

/-- Dropping the most significant byte of a `k+1`-byte big-endian field
leaves the `k`-byte big-endian field (`header[1:]` in `_write_frame`). -/
theorem beBytes_succ_drop_one (k n : Nat) :
    (beBytes (k + 1) n).drop 1 = beBytes k n := by
  induction k generalizing n with
  | zero => simp [beBytes]
  | succ k ih =>
    rw [beBytes]
    rw [List.drop_append_of_le_length (by simp [beBytes_length])]
    rw [ih]
    rfl

/-! ## Frame types and flags

The numeric codes live in `constants.py`, which is not part of the sources
under verification; they are the standard HTTP/2 registry values for the
subset of types the spec names (DATA, HEADERS, SETTINGS, RST_STREAM,
WINDOW_UPDATE). Modelled from the spec. -/

/-- Modelled from the spec: the supported subset of `constants.FrameType`
("one of DATA, HEADERS, SETTINGS, RST_STREAM, WINDOW_UPDATE"), with the
standard HTTP/2 type codes. -/
inductive FrameType where
  | DATA
  | HEADERS
  | RST_STREAM
  | SETTINGS
  | WINDOW_UPDATE
  deriving Repr, DecidableEq

/-- The numeric code of a frame type (`FrameType.value` in Python). -/
def FrameType.code : FrameType → Nat
  | .DATA => 0
  | .HEADERS => 1
  | .RST_STREAM => 3
  | .SETTINGS => 4
  | .WINDOW_UPDATE => 8

/-- `constants.FrameType(code)`: recover a frame type from its code, failing
on a code outside the supported set. -/
def FrameType.ofCode (c : Nat) : Option FrameType :=
  if c = 0 then some .DATA
  else if c = 1 then some .HEADERS
  else if c = 3 then some .RST_STREAM
  else if c = 4 then some .SETTINGS
  else if c = 8 then some .WINDOW_UPDATE
  else none

theorem FrameType.ofCode_code (t : FrameType) : FrameType.ofCode t.code = some t := by
  cases t <;> rfl

/-- Modelled from the spec: the flag bits of `constants.FrameFlag` the code
uses (END_STREAM, ACK, END_HEADERS, PRIORITY), with the standard HTTP/2
values. -/
def FrameFlag.END_STREAM : Nat := 0x1

/-- SETTINGS acknowledgement flag (`constants.FrameFlag.ACK`). -/
def FrameFlag.ACK : Nat := 0x1

/-- Header-block termination flag (`constants.FrameFlag.END_HEADERS`). -/
def FrameFlag.END_HEADERS : Nat := 0x4

/-- Priority-fields-present flag (`constants.FrameFlag.PRIORITY`). -/
def FrameFlag.PRIORITY : Nat := 0x20

/-! ## Frames and the frame codec (`Frame`, `_write_frame`, `_read_frame`) -/

/-- `Frame = collections.namedtuple('Frame', ['type', 'flags', 'stream_id',
'data'])`. `flags` is a byte-sized bit set, `stream_id` a 31-bit id, `data`
the payload bytes. -/
structure Frame where
  type : FrameType
  flags : Nat
  stream_id : Nat
  data : List Nat
  deriving Repr, DecidableEq

/-- `Connection._write_frame`: `struct.pack('>iBBi', len(data), type, flags,
stream_id)` with the first byte of the 32-bit length sliced off, then the
payload verbatim. -/
def encodeFrame (f : Frame) : List Nat :=
  let header := beBytes 4 f.data.length ++ [f.type.code, f.flags] ++ beBytes 4 f.stream_id
  header.drop 1 ++ f.data

/-- Errors of `_read_frame`: a short read raises `StreamClosedError`; an
unknown type code fails `constants.FrameType(typ)` with a `ValueError`. -/
inductive ReadErr where
  | closed
  | unknownType (code : Nat)
  deriving Repr, DecidableEq

/-- `Connection._read_frame` on a byte stream: read exactly 9 header bytes
(24-bit big-endian length re-prefixed with a zero byte, type byte, flags
byte, 32-bit stream id masked with `0x7fffffff`), then read exactly
`data_len` payload bytes; returns the frame and the unread remainder of the
stream. -/
def readFrame : List Nat → Except ReadErr (Frame × List Nat)
  | l0 :: l1 :: l2 :: t :: fl :: s0 :: s1 :: s2 :: s3 :: rest =>
    let dataLen := fromBE [l0, l1, l2]
    let streamId := fromBE [s0, s1, s2, s3] % 2 ^ 31
    match FrameType.ofCode t with
    | none => .error (.unknownType t)
    | some typ =>
      if dataLen ≤ rest.length then
        .ok (⟨typ, fl, streamId, rest.take dataLen⟩, rest.drop dataLen)
      else
        .error .closed
  | _ => .error .closed

theorem encodeFrame_eq (f : Frame) :
    encodeFrame f =
      beBytes 3 f.data.length ++ [f.type.code, f.flags] ++ beBytes 4 f.stream_id
        ++ f.data := by
  rw [encodeFrame]
  have h3 : (beBytes 4 f.data.length ++ ([f.type.code, f.flags] ++ beBytes 4 f.stream_id)).drop 1
      = (beBytes 4 f.data.length).drop 1 ++ ([f.type.code, f.flags] ++ beBytes 4 f.stream_id) := by
    refine List.drop_append_of_le_length ?_
    simp [beBytes_length]
  simp only [List.append_assoc] at *
  rw [h3, beBytes_succ_drop_one]
  simp [List.append_assoc]

/-- C1. Frame encode/decode round-trip: for every frame whose type is in the
supported set, whose flags value is a single byte, whose stream id lies in
`[0, 2^31-1]` and whose payload length lies in `[0, 2^24-1]`, decoding the
bytes written by `_write_frame` (followed by any further stream contents)
yields the original frame and leaves the further contents unread. -/
theorem frame_roundtrip (t : FrameType) (flags sid : Nat) (data rest : List Nat)
    (hflags : flags < 256) (hsid : sid < 2 ^ 31) (hdata : data.length < 2 ^ 24) :
    readFrame (encodeFrame ⟨t, flags, sid, data⟩ ++ rest) =
      .ok (⟨t, flags, sid, data⟩, rest) := by
  rw [encodeFrame_eq]
  show readFrame (beBytes 3 data.length ++ [t.code, flags] ++ beBytes 4 sid ++ data ++ rest)
    = .ok (⟨t, flags, sid, data⟩, rest)
  have h3 : beBytes 3 data.length =
      [data.length / 256 / 256 % 256, data.length / 256 % 256, data.length % 256] := by
    simp [beBytes]
  have h4 : beBytes 4 sid =
      [sid / 256 / 256 / 256 % 256, sid / 256 / 256 % 256, sid / 256 % 256, sid % 256] := by
    simp [beBytes]
  have hlen : fromBE (beBytes 3 data.length) = data.length :=
    fromBE_beBytes_of_lt (by exact_mod_cast hdata)
  have hsid' : fromBE (beBytes 4 sid) = sid :=
    fromBE_beBytes_of_lt (lt_trans hsid (by norm_num))
  rw [h3, h4]
  rw [h3] at hlen
  rw [h4] at hsid'
  simp only [List.cons_append, List.nil_append, List.append_assoc]
  rw [readFrame]
  simp only [hlen, hsid', FrameType.ofCode_code, Nat.mod_eq_of_lt hsid]
  rw [if_pos (by simp)]
  simp [List.take_left, List.drop_left]

/-- Witness for C1 at a concrete frame. -/
theorem frame_roundtrip_witness :
    readFrame (encodeFrame ⟨.HEADERS, 5, 3, [10, 20, 30]⟩ ++ [9, 9]) =
      .ok (⟨.HEADERS, 5, 3, [10, 20, 30]⟩, [9, 9]) :=
  frame_roundtrip .HEADERS 5 3 [10, 20, 30] [9, 9] (by norm_num) (by norm_num)
    (by norm_num)

/-! ## Stream, outbound side (`write_headers` counter, `write`, `finish`)

The transport is modelled as the list of frames passed to
`conn._write_frame`, appended in order. The `_reset_on_error` decorator is
part of each operation: on an `HTTPOutputError` the operation appends the
`RST_STREAM` frame written by `Stream.reset` and reports the error. -/

/-- The `HTTPOutputError`s raised by the outbound side. -/
inductive OutErr where
  | overrun
  | shortfall
  deriving Repr, DecidableEq

/-- Outbound state of one stream: `_expected_content_remaining` (a Python
int, possibly negative) and the frames written so far on the connection. -/
structure OutState where
  ecr : Option Int
  out : List Frame
  deriving Repr, DecidableEq

/-- `Stream.reset`: the RST_STREAM frame with a four-zero-byte payload. -/
def rstStreamFrame (sid : Nat) : Frame :=
  ⟨.RST_STREAM, 0, sid, [0, 0, 0, 0]⟩

/-- How a successful `Stream.write` signals completion: the caller-supplied
callback is invoked, or an already-resolved future is returned. -/
inductive WriteDone where
  | callbackInvoked
  | resolvedFuture
  deriving Repr, DecidableEq

/-- Result of one `Stream.write` call. -/
structure WriteResult where
  st : OutState
  err : Option OutErr
  done : Option WriteDone
  deriving Repr, DecidableEq

/-- Python truthiness of the `chunk` argument: `None` and `b''` are falsy. -/
def chunkTruthy : Option (List Nat) → Bool
  | none => false
  | some c => !c.isEmpty

/-- `Stream.write(chunk, callback)`: on a truthy chunk, decrement
`_expected_content_remaining` (when tracked) by the chunk length, raise the
content-length overrun `HTTPOutputError` if it went negative (the
`_reset_on_error` wrapper then writes RST_STREAM), otherwise write a DATA
frame with no flags; finally invoke the callback or return a resolved
future. -/
def Stream.write (sid : Nat) (st : OutState) (chunk : Option (List Nat))
    (hasCallback : Bool) : WriteResult :=
  let doneVal : WriteDone := if hasCallback then .callbackInvoked else .resolvedFuture
  if chunkTruthy chunk then
    let c := chunk.getD []
    match st.ecr with
    | some r =>
      let r' := r - c.length
      if r' < 0 then
        ⟨⟨some r', st.out ++ [rstStreamFrame sid]⟩, some .overrun, none⟩
      else
        ⟨⟨some r', st.out ++ [⟨.DATA, 0, sid, c⟩]⟩, none, some doneVal⟩
    | none => ⟨⟨none, st.out ++ [⟨.DATA, 0, sid, c⟩]⟩, none, some doneVal⟩
  else
    ⟨st, none, some doneVal⟩

/-- `Stream.finish()`: raise the content-length shortfall `HTTPOutputError`
when `_expected_content_remaining` is tracked and nonzero (the wrapper then
writes RST_STREAM); otherwise write an empty DATA frame with END_STREAM. -/
def Stream.finish (sid : Nat) (st : OutState) : OutState × Option OutErr :=
  match st.ecr with
  | some r =>
    if r ≠ 0 then
      (⟨st.ecr, st.out ++ [rstStreamFrame sid]⟩, some .shortfall)
    else
      (⟨st.ecr, st.out ++ [⟨.DATA, FrameFlag.END_STREAM, sid, []⟩]⟩, none)
  | none => (⟨st.ecr, st.out ++ [⟨.DATA, FrameFlag.END_STREAM, sid, []⟩]⟩, none)

/-- The `_expected_content_remaining` assignment at the top of
`Stream.write_headers`: zero for a server answering a HEAD request or
sending a 304, else the parsed `Content-Length` header when present
(`content_length`, the header container being an external collaborator),
else left as it was. -/
def Stream.write_headers_ecr (is_client : Bool) (request_method : String)
    (status_code : Int) (content_length : Option Int) (ecr : Option Int) :
    Option Int :=
  if !is_client && (request_method = "HEAD" || status_code = 304) then
    some 0
  else
    match content_length with
    | some n => some n
    | none => ecr

/-- A sequence of `Stream.write` calls (future convention, no callback),
stopping at the first raised error as the exception propagates to the
caller. -/
def Stream.writeSeq (sid : Nat) (st : OutState) :
    List (List Nat) → OutState × Option OutErr
  | [] => (st, none)
  | c :: cs =>
    let r := Stream.write sid st (some c) false
    match r.err with
    | some e => (r.st, some e)
    | none => Stream.writeSeq sid r.st cs

/-- Total byte length of a chunk sequence. -/
def totalLen (cs : List (List Nat)) : Nat :=
  (cs.map List.length).sum

/-- Total payload bytes of the DATA frames in a written frame sequence. -/
def dataBytes (fs : List Frame) : Nat :=
  (fs.filterMap fun f => if f.type = .DATA then some f.data.length else none).sum

/-- The DATA frames `writeSeq` emits for a chunk sequence (falsy chunks
write nothing). -/
def emittedData (sid : Nat) (cs : List (List Nat)) : List Frame :=
  cs.filterMap fun c => if c.isEmpty then none else some ⟨.DATA, 0, sid, c⟩

theorem dataBytes_append (fs gs : List Frame) :
    dataBytes (fs ++ gs) = dataBytes fs + dataBytes gs := by
  simp [dataBytes, List.filterMap_append]

theorem Stream.write_falsy (sid : Nat) (st : OutState) (chunk : Option (List Nat))
    (cb : Bool) (h : chunkTruthy chunk = false) :
    Stream.write sid st chunk cb =
      ⟨st, none, some (if cb then .callbackInvoked else .resolvedFuture)⟩ := by
  simp [Stream.write, h]

theorem Stream.write_overrun (sid : Nat) (r : Int) (out : List Frame)
    (c : List Nat) (cb : Bool) (hc : c.isEmpty = false)
    (hneg : r - (c.length : Int) < 0) :
    Stream.write sid ⟨some r, out⟩ (some c) cb =
      ⟨⟨some (r - c.length), out ++ [rstStreamFrame sid]⟩, some .overrun, none⟩ := by
  simp [Stream.write, chunkTruthy, hc, hneg]

theorem Stream.write_ok (sid : Nat) (r : Int) (out : List Frame)
    (c : List Nat) (cb : Bool) (hc : c.isEmpty = false)
    (hpos : ¬r - (c.length : Int) < 0) :
    Stream.write sid ⟨some r, out⟩ (some c) cb =
      ⟨⟨some (r - c.length), out ++ [⟨.DATA, 0, sid, c⟩]⟩, none,
        some (if cb then .callbackInvoked else .resolvedFuture)⟩ := by
  simp [Stream.write, chunkTruthy, hc, hpos]

theorem Stream.write_untracked (sid : Nat) (out : List Frame) (c : List Nat)
    (cb : Bool) (hc : c.isEmpty = false) :
    Stream.write sid ⟨none, out⟩ (some c) cb =
      ⟨⟨none, out ++ [⟨.DATA, 0, sid, c⟩]⟩, none,
        some (if cb then .callbackInvoked else .resolvedFuture)⟩ := by
  simp [Stream.write, chunkTruthy, hc]

theorem Stream.finish_tracked (sid : Nat) (r : Int) (out : List Frame) :
    Stream.finish sid ⟨some r, out⟩ =
      if r ≠ 0 then
        (⟨some r, out ++ [rstStreamFrame sid]⟩, some .shortfall)
      else
        (⟨some r, out ++ [⟨.DATA, FrameFlag.END_STREAM, sid, []⟩]⟩, none) := rfl

/-- `writeSeq` when the declared length covers the chunks: every write
succeeds, the counter ends at the undelivered remainder, and exactly the
chunks' DATA frames are appended. -/
theorem writeSeq_ok (sid : Nat) (cs : List (List Nat)) (r : Int)
    (out : List Frame) (hr : 0 ≤ r) (hle : (totalLen cs : Int) ≤ r) :
    Stream.writeSeq sid ⟨some r, out⟩ cs =
      (⟨some (r - totalLen cs), out ++ emittedData sid cs⟩, none) := by
  induction cs generalizing r out with
  | nil => simp [Stream.writeSeq, totalLen, emittedData]
  | cons c cs ih =>
    have htot : totalLen (c :: cs) = c.length + totalLen cs := by
      simp [totalLen]
    rw [htot] at hle
    cases hc : c.isEmpty with
    | true =>
      have hceq : c = [] := by
        cases c with
        | nil => rfl
        | cons a as => exact absurd hc (by simp)
      subst hceq
      rw [Stream.writeSeq, Stream.write_falsy sid _ _ _ (by simp [chunkTruthy])]
      dsimp only
      rw [ih r out hr (by simpa using hle)]
      simp [emittedData, totalLen]
    | false =>
      have hnz : ¬(r - (c.length : Int) < 0) := by push_cast at hle; omega
      rw [Stream.writeSeq, Stream.write_ok sid r out c false hc hnz]
      dsimp only
      rw [ih (r - c.length) (out ++ [Frame.mk .DATA 0 sid c]) (by omega)
        (by push_cast at hle ⊢; omega)]
      have harith : r - (c.length : Int) - (totalLen cs : Int) =
          r - (totalLen (c :: cs) : Int) := by
        rw [htot]; push_cast; ring
      rw [harith]
      have hcne : c ≠ [] := by
        cases c with
        | nil => exact absurd hc (by simp)
        | cons a as => simp
      have hemit : emittedData sid (c :: cs) =
          ⟨.DATA, 0, sid, c⟩ :: emittedData sid cs := by
        simp [emittedData, List.filterMap_cons, hcne]
      rw [hemit]
      simp [List.append_assoc]

/-- `writeSeq` when the chunks overrun the declared length: the sequence
fails with the overrun error and the DATA bytes actually written never
exceed the declared length. -/
theorem writeSeq_overrun (sid : Nat) (cs : List (List Nat)) (r : Int)
    (out : List Frame) (hr : 0 ≤ r) (hgt : r < (totalLen cs : Int)) :
    (Stream.writeSeq sid ⟨some r, out⟩ cs).2 = some .overrun ∧
      (dataBytes (Stream.writeSeq sid ⟨some r, out⟩ cs).1.out : Int) ≤
        (dataBytes out : Int) + r := by
  induction cs generalizing r out with
  | nil =>
    exfalso
    simp [totalLen] at hgt
    omega
  | cons c cs ih =>
    have htot : totalLen (c :: cs) = c.length + totalLen cs := by
      simp [totalLen]
    rw [htot] at hgt
    cases hc : c.isEmpty with
    | true =>
      have hceq : c = [] := by
        cases c with
        | nil => rfl
        | cons a as => exact absurd hc (by simp)
      subst hceq
      rw [Stream.writeSeq, Stream.write_falsy sid _ _ _ (by simp [chunkTruthy])]
      dsimp only
      exact ih r out hr (by simpa using hgt)
    | false =>
      by_cases hover : r - (c.length : Int) < 0
      · rw [Stream.writeSeq, Stream.write_overrun sid r out c false hc hover]
        dsimp only
        refine ⟨rfl, ?_⟩
        show (dataBytes (out ++ [rstStreamFrame sid]) : Int) ≤ (dataBytes out : Int) + r
        rw [dataBytes_append]
        have hrst : dataBytes [rstStreamFrame sid] = 0 := by
          simp [dataBytes, rstStreamFrame]
        rw [hrst]
        push_cast
        omega
      · rw [Stream.writeSeq, Stream.write_ok sid r out c false hc hover]
        dsimp only
        have hrec := ih (r - c.length) (out ++ [Frame.mk .DATA 0 sid c])
          (by omega) (by push_cast at hgt ⊢; omega)
        refine ⟨hrec.1, ?_⟩
        refine le_trans hrec.2 ?_
        have hdb : dataBytes (out ++ [⟨.DATA, 0, sid, c⟩]) =
            dataBytes out + c.length := by
          rw [dataBytes_append]
          simp [dataBytes]
        rw [hdb]
        push_cast
        omega

/-- C2. Content-length enforcement on the outbound side: once
`write_headers` has set `_expected_content_remaining` from a declared
`Content-Length` of `n`, a chunk sequence of total length above `n` fails
with the overrun error with at most `n` DATA payload bytes written (the
offending DATA frame is never written); a shorter sequence leaves `finish`
failing with the shortfall error; a sequence of exactly `n` bytes succeeds
and `finish` then succeeds, appending the empty DATA frame with END_STREAM
set. -/
theorem content_length_enforcement (sid : Nat) (n : Int) (hn : 0 ≤ n)
    (cs : List (List Nat)) :
    (Stream.write_headers_ecr false "GET" 200 (some n) none = some n) ∧
    (((n < (totalLen cs : Int)) →
        (Stream.writeSeq sid ⟨some n, []⟩ cs).2 = some .overrun ∧
          (dataBytes (Stream.writeSeq sid ⟨some n, []⟩ cs).1.out : Int) ≤ n) ∧
     (((totalLen cs : Int) < n) →
        (Stream.writeSeq sid ⟨some n, []⟩ cs).2 = none ∧
          (Stream.finish sid (Stream.writeSeq sid ⟨some n, []⟩ cs).1).2 =
            some .shortfall) ∧
     (((totalLen cs : Int) = n) →
        (Stream.writeSeq sid ⟨some n, []⟩ cs).2 = none ∧
          (Stream.finish sid (Stream.writeSeq sid ⟨some n, []⟩ cs).1).2 = none ∧
          (Stream.finish sid (Stream.writeSeq sid ⟨some n, []⟩ cs).1).1.out =
            emittedData sid cs ++
              [⟨.DATA, FrameFlag.END_STREAM, sid, []⟩])) := by
  refine ⟨by simp [Stream.write_headers_ecr], ?_, ?_, ?_⟩
  · intro hover
    have h := writeSeq_overrun sid cs n [] hn hover
    refine ⟨h.1, ?_⟩
    have h2 := h.2
    have hnil : dataBytes ([] : List Frame) = 0 := rfl
    rw [hnil] at h2
    push_cast at h2 ⊢
    omega
  · intro hshort
    rw [writeSeq_ok sid cs n [] hn (le_of_lt hshort)]
    refine ⟨rfl, ?_⟩
    show (Stream.finish sid ⟨some (n - totalLen cs), [] ++ emittedData sid cs⟩).2 =
      some .shortfall
    rw [Stream.finish_tracked, if_pos (show (n : Int) - (totalLen cs : Int) ≠ 0 by omega)]
  · intro hexact
    rw [writeSeq_ok sid cs n [] hn (le_of_eq hexact)]
    refine ⟨rfl, ?_, ?_⟩
    · show (Stream.finish sid ⟨some (n - totalLen cs), [] ++ emittedData sid cs⟩).2 = none
      rw [Stream.finish_tracked, if_neg (show ¬((n : Int) - (totalLen cs : Int) ≠ 0) by omega)]
    · show (Stream.finish sid ⟨some (n - totalLen cs), [] ++ emittedData sid cs⟩).1.out =
        emittedData sid cs ++ [⟨.DATA, FrameFlag.END_STREAM, sid, []⟩]
      rw [Stream.finish_tracked, if_neg (show ¬((n : Int) - (totalLen cs : Int) ≠ 0) by omega)]
      simp

/-- Witness for C2: `Content-Length: 2`, chunks `[[7], [8, 9]]` overrun. -/
theorem content_length_enforcement_witness :
    (0 : Int) ≤ 2 ∧
      (Stream.writeSeq 1 ⟨some 2, []⟩ [[7], [8, 9]]).2 = some .overrun := by
  refine ⟨by norm_num, ?_⟩
  have h := content_length_enforcement 1 2 (by norm_num) [[7], [8, 9]]
  exact (h.2.1 (by norm_num [totalLen])).1

/-- C9. The overrun error path leaves the counter decremented: a failing
`write` has already subtracted the full chunk length from
`_expected_content_remaining`, leaving it negative and unrestored; from any
negative counter, every further write of a non-empty chunk fails with the
overrun error (and decrements again), and `finish` fails with the shortfall
error. -/
theorem overrun_poisons_counter (sid : Nat) (r : Int) (out : List Frame)
    (c : List Nat) (cb : Bool) (hc : c.isEmpty = false)
    (hneg : r - (c.length : Int) < 0) :
    (Stream.write sid ⟨some r, out⟩ (some c) cb =
      ⟨⟨some (r - c.length), out ++ [rstStreamFrame sid]⟩, some .overrun, none⟩) ∧
    (∀ (r' : Int) (out' : List Frame) (c' : List Nat) (cb' : Bool),
      r' < 0 → c'.isEmpty = false →
        Stream.write sid ⟨some r', out'⟩ (some c') cb' =
          ⟨⟨some (r' - c'.length), out' ++ [rstStreamFrame sid]⟩,
            some .overrun, none⟩) ∧
    (∀ (r' : Int) (out' : List Frame), r' < 0 →
      (Stream.finish sid ⟨some r', out'⟩).2 = some .shortfall) := by
  refine ⟨Stream.write_overrun sid r out c cb hc hneg, ?_, ?_⟩
  · intro r' out' c' cb' hr' hc'
    have hlen : (0 : Int) ≤ (c'.length : Int) := by positivity
    exact Stream.write_overrun sid r' out' c' cb' hc' (by omega)
  · intro r' out' hr'
    rw [Stream.finish_tracked, if_pos (show r' ≠ 0 by omega)]

/-- Witness for C9 at counter 0 and a one-byte chunk. -/
theorem overrun_poisons_counter_witness :
    ([5].isEmpty = false ∧ (0 : Int) - (([5] : List Nat).length : Int) < 0) ∧
      Stream.write 1 ⟨some 0, []⟩ (some [5]) false =
        ⟨⟨some (-1), [rstStreamFrame 1]⟩, some .overrun, none⟩ := by
  refine ⟨⟨rfl, by norm_num⟩, ?_⟩
  have h := (overrun_poisons_counter 1 0 [] [5] false rfl (by norm_num)).1
  simpa using h

/-- C10. `write` with a falsy chunk (`None` or `b''`) writes no DATA frame,
leaves `_expected_content_remaining` unchanged, raises no error, and still
signals completion (callback invoked, or an already-resolved future
returned, by call convention). -/
theorem write_empty_chunk_noop (sid : Nat) (st : OutState)
    (chunk : Option (List Nat)) (cb : Bool)
    (h : chunk = none ∨ chunk = some []) :
    Stream.write sid st chunk cb =
      ⟨st, none, some (if cb then .callbackInvoked else .resolvedFuture)⟩ := by
  rcases h with h | h <;> subst h <;>
    exact Stream.write_falsy sid st _ cb (by simp [chunkTruthy])

/-- Witness for C10 with `chunk = None` and a callback. -/
theorem write_empty_chunk_noop_witness :
    Stream.write 1 ⟨some 3, []⟩ none true =
      ⟨⟨some 3, []⟩, none, some .callbackInvoked⟩ := by
  have h := write_empty_chunk_noop 1 ⟨some 3, []⟩ none true (Or.inl rfl)
  simpa using h

/-! ## Stream, inbound side (`handle_frame` and the three frame handlers)

The HPACK decoder is an external collaborator; it enters as a function
`dec : List Nat → List (List Nat × List Nat)` from a header block to the
decoded (name, value) list (the index column of its triples is unused by
the engine). Delegate callbacks, which are likewise external, are recorded
as an event list in call order. `finish_future` is modelled by a counter of
`set_result` calls, so one-shot use is the statement `count ≤ 1`. -/

/-- `Params.__init__`: falsy arguments (`None`, `0`) fall back to the
defaults `65536` / `65536` / `False`. -/
structure Params where
  chunk_size : Nat
  max_header_size : Nat
  decompress : Bool
  deriving Repr, DecidableEq

/-- `Params(chunk_size, max_header_size, decompress)` with Python's
`x or 65536` defaulting. -/
def Params.init (chunk_size max_header_size : Option Nat) (decompress : Bool) :
    Params :=
  ⟨(match chunk_size with
    | some v => if v = 0 then 65536 else v
    | none => 65536),
   (match max_header_size with
    | some v => if v = 0 then 65536 else v
    | none => 65536),
   decompress⟩

/-- Per-stream inbound state: `_need_delegate_close` and the number of
`finish_future.set_result` calls so far. -/
structure InState where
  need_delegate_close : Bool
  finishSetCount : Nat
  deriving Repr, DecidableEq

/-- `Stream.__init__`: a fresh future (never set) and
`_need_delegate_close = False`. -/
def InState.fresh : InState := ⟨false, 0⟩

/-- The start line handed to `headers_received`: `RequestStartLine(method,
path, 'HTTP/2.0')` on a server, `ResponseStartLine('HTTP/2.0', status,
reason)` on a client (the `responses` reason table is external). -/
inductive StartLine where
  | request (method path : List Nat)
  | response (status : Nat)
  deriving Repr, DecidableEq

/-- Delegate callbacks, recorded in invocation order. -/
inductive DEvent where
  | headers_received (sl : StartLine) (headers : List (List Nat × List Nat))
  | data_received (data : List Nat)
  | finish
  | on_connection_close
  deriving Repr, DecidableEq

/-- Exceptions escaping `Stream.handle_frame`. -/
inductive StreamErr where
  | continuationUnsupported
  | missingPseudoHeader
  | badStatus
  | invalidFrameType
  deriving Repr, DecidableEq

/-- `b':method'` as bytes. -/
def methodKey : List Nat := [58, 109, 101, 116, 104, 111, 100]

/-- `b':path'` as bytes. -/
def pathKey : List Nat := [58, 112, 97, 116, 104]

/-- `b':status'` as bytes. -/
def statusKey : List Nat := [58, 115, 116, 97, 116, 117, 115]

/-- `k.startswith(b':')`: the name's first byte is a colon. -/
def isPseudo (k : List Nat) : Bool := k.head? == some 58

/-- Python-dict lookup over an insertion-ordered pair list: a later binding
of the same key overwrites an earlier one, so the last occurrence wins. -/
def dictGet (l : List (List Nat × List Nat)) (k : List Nat) :
    Option (List Nat) :=
  l.reverse.lookup k

/-- `int()` on the `:status` pseudo-header value: a non-empty all-digit
byte string parsed as decimal (the engine feeds it only such values; the
builtin's sign/whitespace liberality is unused here). -/
def parseDecimal (bs : List Nat) : Option Nat :=
  if bs.isEmpty then none
  else if bs.all (fun b => 48 ≤ b && b ≤ 57) then
    some (bs.foldl (fun acc b => acc * 10 + (b - 48)) 0)
  else none

/-- Building the start line from the pseudo-header dict: a client needs
`:status` (parsed as an int), a server needs `:method` and `:path`; a
missing key raises `KeyError`. -/
def mkStartLine (is_client : Bool)
    (pseudo : List (List Nat × List Nat)) : Except StreamErr StartLine :=
  if is_client then
    match dictGet pseudo statusKey with
    | none => .error .missingPseudoHeader
    | some v =>
      match parseDecimal v with
      | none => .error .badStatus
      | some code => .ok (.response code)
  else
    match dictGet pseudo methodKey, dictGet pseudo pathKey with
    | some m, some pa => .ok (.request m pa)
    | _, _ => .error .missingPseudoHeader

/-- The decoded header block of a HEADERS frame: the payload, less the 5
stream-dependency/weight bytes when the PRIORITY flag is set, run through
the connection's HPACK decoder `dec`. -/
def hbEntries (dec : List Nat → List (List Nat × List Nat)) (f : Frame) :
    List (List Nat × List Nat) :=
  dec (if f.flags &&& FrameFlag.PRIORITY ≠ 0 then f.data.drop 5 else f.data)

/-- `Stream._handle_headers_frame`: require END_HEADERS (else fatal),
silently drop payloads over `max_header_size`, strip 5 priority bytes under
the PRIORITY flag, decode, split pseudo-headers from regular headers, build
the start line, set `_need_delegate_close`, call `headers_received`, and on
END_STREAM call `finish` and resolve `finish_future`. -/
def Stream.handle_headers_frame (dec : List Nat → List (List Nat × List Nat))
    (p : Params) (is_client : Bool) (st : InState) (f : Frame) :
    Except StreamErr (InState × List DEvent) :=
  if f.flags &&& FrameFlag.END_HEADERS = 0 then
    .error .continuationUnsupported
  else if f.data.length > p.max_header_size then
    -- gen_log.warning("Unsatisfiable read"); return
    .ok (st, [])
  else
    match mkStartLine is_client ((hbEntries dec f).filter fun e => isPseudo e.1) with
    | .error e => .error e
    | .ok sl =>
      if f.flags &&& FrameFlag.END_STREAM ≠ 0 then
        .ok (⟨true, st.finishSetCount + 1⟩,
          [.headers_received sl ((hbEntries dec f).filter fun e => !isPseudo e.1),
            .finish])
      else
        .ok (⟨true, st.finishSetCount⟩,
          [.headers_received sl ((hbEntries dec f).filter fun e => !isPseudo e.1)])

/-- `Stream._handle_data_frame`: hand the payload to `data_received`; on
END_STREAM clear `_need_delegate_close`, call `finish`, resolve
`finish_future`. -/
def Stream.handle_data_frame (st : InState) (f : Frame) :
    InState × List DEvent :=
  if f.flags &&& FrameFlag.END_STREAM ≠ 0 then
    (⟨false, st.finishSetCount + 1⟩, [.data_received f.data, .finish])
  else
    (st, [.data_received f.data])

/-- `Stream._handle_rst_stream_frame`: forward an abrupt close to the
delegate only while `_need_delegate_close` holds (the flag is not
cleared). -/
def Stream.handle_rst_stream_frame (st : InState) :
    InState × List DEvent :=
  if st.need_delegate_close then (st, [.on_connection_close]) else (st, [])

/-- `Stream.handle_frame`: dispatch on the frame type; any other type is a
fatal error. -/
def Stream.handle_frame (dec : List Nat → List (List Nat × List Nat))
    (p : Params) (is_client : Bool) (st : InState) (f : Frame) :
    Except StreamErr (InState × List DEvent) :=
  match f.type with
  | .HEADERS => Stream.handle_headers_frame dec p is_client st f
  | .DATA => .ok (Stream.handle_data_frame st f)
  | .RST_STREAM => .ok (Stream.handle_rst_stream_frame st)
  | _ => .error .invalidFrameType

/-- A stream handling a frame sequence, stopping at the first escaping
exception, with the delegate calls accumulated in order. -/
def Stream.handleSeq (dec : List Nat → List (List Nat × List Nat))
    (p : Params) (is_client : Bool) (st : InState) :
    List Frame → InState × List DEvent × Option StreamErr
  | [] => (st, [], none)
  | f :: fs =>
    match Stream.handle_frame dec p is_client st f with
    | .error e => (st, [], some e)
    | .ok (st', evs) =>
      let rest := Stream.handleSeq dec p is_client st' fs
      (rest.1, evs ++ rest.2.1, rest.2.2)

/-- A HPACK decoder used in concrete runs: decodes any block to the
pseudo-headers of `GET /`. -/
def decGET : List Nat → List (List Nat × List Nat) :=
  fun _ => [(methodKey, [71, 69, 84]), (pathKey, [47])]

/-- The default parameters (`Params()`). -/
def defaultParams : Params := Params.init none none false

/-- C3 counterexample: on a server stream with the default parameters, an
RST_STREAM frame handled before any frame at all (so certainly before any
END_STREAM) invokes no delegate callback — not `on_connection_close` once,
as the claim states; and an RST_STREAM handled after a HEADERS frame
carrying END_STREAM is not a no-op: it invokes `on_connection_close`. -/
theorem rst_stream_claim_counterexample :
    ((Stream.handleSeq decGET defaultParams false InState.fresh
        [⟨.RST_STREAM, 0, 1, []⟩]).2.1.count .on_connection_close = 0) ∧
    ((Stream.handleSeq decGET defaultParams false InState.fresh
        [⟨.HEADERS, 5, 1, []⟩, ⟨.RST_STREAM, 0, 1, []⟩]).2.1.count
          .on_connection_close = 1) := by
  constructor <;> rfl

/-- C3 (amended). An RST_STREAM frame invokes `on_connection_close` exactly
once when `_need_delegate_close` is set and is a no-op otherwise (the flag
is left unchanged); the flag is set by every HEADERS frame delivered to the
delegate — also one carrying END_STREAM, which does not clear it — and is
cleared exactly by a DATA frame carrying END_STREAM. Hence RST_STREAM after
END_STREAM on a DATA frame is a no-op, RST_STREAM before any delivered
HEADERS is a no-op, and RST_STREAM after END_STREAM on a HEADERS frame
still invokes `on_connection_close`. -/
theorem rst_stream_close_amended (dec : List Nat → List (List Nat × List Nat))
    (p : Params) (ic : Bool) :
    (∀ (st : InState) (f : Frame), f.type = .RST_STREAM →
      Stream.handle_frame dec p ic st f =
        .ok (st, if st.need_delegate_close then [.on_connection_close] else [])) ∧
    (∀ (st st' : InState) (f : Frame) (evs : List DEvent), f.type = .HEADERS →
      Stream.handle_frame dec p ic st f = .ok (st', evs) → evs ≠ [] →
      st'.need_delegate_close = true) ∧
    (∀ (st : InState) (f : Frame), f.type = .DATA →
      (Stream.handle_frame dec p ic st f).map (fun r => r.1.need_delegate_close) =
        .ok (if f.flags &&& FrameFlag.END_STREAM ≠ 0 then false
             else st.need_delegate_close)) := by
  refine ⟨?_, ?_, ?_⟩
  · intro st f ht
    obtain ⟨ft, ffl, fsid, fdata⟩ := f
    simp only at ht
    subst ht
    simp only [Stream.handle_frame, Stream.handle_rst_stream_frame]
    by_cases h : st.need_delegate_close <;> simp [h]
  · intro st st' f evs ht hok hne
    obtain ⟨ft, ffl, fsid, fdata⟩ := f
    simp only at ht
    subst ht
    simp only [Stream.handle_frame] at hok
    rw [Stream.handle_headers_frame] at hok
    by_cases h1 : ffl &&& FrameFlag.END_HEADERS = 0
    · rw [if_pos h1] at hok
      exact absurd hok (by simp)
    · rw [if_neg h1] at hok
      by_cases h2 : fdata.length > p.max_header_size
      · rw [if_pos h2] at hok
        simp only [Except.ok.injEq, Prod.mk.injEq] at hok
        exact absurd hok.2.symm hne
      · rw [if_neg h2] at hok
        cases hm : mkStartLine ic ((hbEntries dec ⟨.HEADERS, ffl, fsid, fdata⟩).filter
            fun e => isPseudo e.1) with
        | error e =>
          rw [hm] at hok
          dsimp only at hok
          exact absurd hok (by simp)
        | ok sl =>
          rw [hm] at hok
          dsimp only at hok
          by_cases h3 : ffl &&& FrameFlag.END_STREAM ≠ 0
          · rw [if_pos h3] at hok
            simp only [Except.ok.injEq, Prod.mk.injEq] at hok
            rw [← hok.1]
          · rw [if_neg h3] at hok
            simp only [Except.ok.injEq, Prod.mk.injEq] at hok
            rw [← hok.1]
  · intro st f ht
    obtain ⟨ft, ffl, fsid, fdata⟩ := f
    simp only at ht
    subst ht
    simp only [Stream.handle_frame, Stream.handle_data_frame]
    by_cases h : ffl &&& FrameFlag.END_STREAM ≠ 0 <;> simp [h, Except.map]

/-- Witness for C3 (amended): RST_STREAM with the flag set invokes
`on_connection_close`; with the flag clear it is a no-op. -/
theorem rst_stream_close_amended_witness :
    Stream.handle_frame decGET defaultParams false ⟨true, 1⟩
        ⟨.RST_STREAM, 0, 1, []⟩ = .ok (⟨true, 1⟩, [.on_connection_close]) ∧
    Stream.handle_frame decGET defaultParams false ⟨false, 0⟩
        ⟨.RST_STREAM, 0, 1, []⟩ = .ok (⟨false, 0⟩, []) := by
  constructor
  · have h := (rst_stream_close_amended decGET defaultParams false).1
      ⟨true, 1⟩ ⟨.RST_STREAM, 0, 1, []⟩ rfl
    simpa using h
  · have h := (rst_stream_close_amended decGET defaultParams false).1
      ⟨false, 0⟩ ⟨.RST_STREAM, 0, 1, []⟩ rfl
    simpa using h

/-- C7. An inbound HEADERS frame with END_HEADERS set whose payload exceeds
`max_header_size` is dropped silently: no delegate callback, the completion
signal untouched, no error, state unchanged; a HEADERS frame without
END_HEADERS raises the fatal continuation error, with no size check
applied. -/
theorem oversized_header_block_dropped
    (dec : List Nat → List (List Nat × List Nat)) (p : Params) (ic : Bool)
    (st : InState) (f : Frame) (ht : f.type = .HEADERS) :
    (f.flags &&& FrameFlag.END_HEADERS ≠ 0 → f.data.length > p.max_header_size →
      Stream.handle_frame dec p ic st f = .ok (st, [])) ∧
    (f.flags &&& FrameFlag.END_HEADERS = 0 →
      Stream.handle_frame dec p ic st f = .error .continuationUnsupported) := by
  obtain ⟨ft, ffl, fsid, fdata⟩ := f
  simp only at ht
  subst ht
  constructor
  · intro h1 h2
    simp only [Stream.handle_frame]
    rw [Stream.handle_headers_frame, if_neg h1, if_pos h2]
  · intro h1
    simp only [Stream.handle_frame]
    rw [Stream.handle_headers_frame, if_pos h1]

/-- Witness for C7 with `max_header_size = 2` and a 3-byte header block. -/
theorem oversized_header_block_dropped_witness :
    Stream.handle_frame decGET (Params.init none (some 2) false) false
        InState.fresh ⟨.HEADERS, 4, 1, [1, 2, 3]⟩ = .ok (InState.fresh, []) ∧
    Stream.handle_frame decGET (Params.init none (some 2) false) false
        InState.fresh ⟨.HEADERS, 0, 1, [1, 2, 3]⟩ =
      .error .continuationUnsupported := by
  constructor
  · exact (oversized_header_block_dropped decGET (Params.init none (some 2) false)
      false InState.fresh ⟨.HEADERS, 4, 1, [1, 2, 3]⟩ rfl).1 (by decide) (by decide)
  · exact (oversized_header_block_dropped decGET (Params.init none (some 2) false)
      false InState.fresh ⟨.HEADERS, 0, 1, [1, 2, 3]⟩ rfl).2 (by decide)

/-- The number of frames in a sequence carrying the END_STREAM flag. -/
def countES (fs : List Frame) : Nat :=
  fs.countP fun f => f.flags &&& FrameFlag.END_STREAM != 0

/-- One handled frame grows the `set_result` count by at most one, and only
when it carries END_STREAM. -/
theorem handle_frame_finishSetCount_le
    (dec : List Nat → List (List Nat × List Nat)) (p : Params) (ic : Bool)
    (st : InState) (f : Frame) (st' : InState) (evs : List DEvent)
    (h : Stream.handle_frame dec p ic st f = .ok (st', evs)) :
    st'.finishSetCount ≤ st.finishSetCount +
      (if f.flags &&& FrameFlag.END_STREAM ≠ 0 then 1 else 0) := by
  obtain ⟨ft, ffl, fsid, fdata⟩ := f
  cases ft with
  | HEADERS =>
    simp only [Stream.handle_frame] at h
    rw [Stream.handle_headers_frame] at h
    by_cases h1 : ffl &&& FrameFlag.END_HEADERS = 0
    · rw [if_pos h1] at h
      exact absurd h (by simp)
    · rw [if_neg h1] at h
      by_cases h2 : fdata.length > p.max_header_size
      · rw [if_pos h2] at h
        simp only [Except.ok.injEq, Prod.mk.injEq] at h
        rw [← h.1]
        split <;> omega
      · rw [if_neg h2] at h
        cases hm : mkStartLine ic ((hbEntries dec ⟨.HEADERS, ffl, fsid, fdata⟩).filter
            fun e => isPseudo e.1) with
        | error e =>
          rw [hm] at h
          dsimp only at h
          exact absurd h (by simp)
        | ok sl =>
          rw [hm] at h
          dsimp only at h
          by_cases h3 : ffl &&& FrameFlag.END_STREAM ≠ 0
          · rw [if_pos h3] at h
            simp only [Except.ok.injEq, Prod.mk.injEq] at h
            rw [← h.1]
            simp only [if_pos h3]
            omega
          · rw [if_neg h3] at h
            simp only [Except.ok.injEq, Prod.mk.injEq] at h
            rw [← h.1]
            simp only [if_neg h3]
            omega
  | DATA =>
    simp only [Stream.handle_frame, Stream.handle_data_frame] at h
    by_cases h3 : ffl &&& FrameFlag.END_STREAM ≠ 0
    · rw [if_pos h3] at h
      simp only [Except.ok.injEq, Prod.mk.injEq] at h
      rw [← h.1]
      simp only [if_pos h3]
      omega
    · rw [if_neg h3] at h
      simp only [Except.ok.injEq, Prod.mk.injEq] at h
      rw [← h.1]
      omega
  | RST_STREAM =>
    simp only [Stream.handle_frame, Stream.handle_rst_stream_frame] at h
    by_cases hn : st.need_delegate_close
    · rw [if_pos hn] at h
      simp only [Except.ok.injEq, Prod.mk.injEq] at h
      rw [← h.1]
      omega
    · rw [if_neg hn] at h
      simp only [Except.ok.injEq, Prod.mk.injEq] at h
      rw [← h.1]
      omega
  | SETTINGS => exact absurd h (by simp [Stream.handle_frame])
  | WINDOW_UPDATE => exact absurd h (by simp [Stream.handle_frame])

theorem handleSeq_finishSetCount_le
    (dec : List Nat → List (List Nat × List Nat)) (p : Params) (ic : Bool)
    (fs : List Frame) (st : InState) :
    (Stream.handleSeq dec p ic st fs).1.finishSetCount ≤
      st.finishSetCount + countES fs := by
  induction fs generalizing st with
  | nil => simp [Stream.handleSeq, countES]
  | cons f fs ih =>
    rw [Stream.handleSeq]
    cases hf : Stream.handle_frame dec p ic st f with
    | error e => simp [countES]
    | ok r =>
      obtain ⟨st', evs⟩ := r
      dsimp only
      have h1 := handle_frame_finishSetCount_le dec p ic st f st' evs hf
      have h2 := ih st'
      by_cases hES : f.flags &&& FrameFlag.END_STREAM = 0
      · have hc : countES (f :: fs) = countES fs := by
          simp [countES, List.countP_cons, hES]
        rw [if_neg (not_not_intro hES)] at h1
        rw [hc]
        omega
      · have hb : (f.flags &&& FrameFlag.END_STREAM != 0) = true := by
          simpa using hES
        have hc : countES (f :: fs) = countES fs + 1 := by
          simp only [countES, List.countP_cons]
          rw [hb]
          simp
        rw [if_pos hES] at h1
        rw [hc]
        omega

/-- C8 counterexample: two DATA frames each carrying END_STREAM drive two
`finish_future.set_result` calls on one stream — the completion signal is
assigned a second time, contradicting the claim. -/
theorem finish_future_double_set :
    (Stream.handleSeq (fun _ => []) defaultParams false InState.fresh
      [⟨.DATA, 1, 1, []⟩, ⟨.DATA, 1, 1, []⟩]).1.finishSetCount = 2 := rfl

/-- C8 (amended). `finish_future.set_result` is called at most once per
handled frame carrying END_STREAM: over any inbound frame sequence the
number of assignments is bounded by the number of END_STREAM-carrying
frames, so any sequence with at most one such frame sets the signal at most
once — but a second END_STREAM-carrying frame assigns it again. -/
theorem finish_future_set_at_most_once_per_end_stream
    (dec : List Nat → List (List Nat × List Nat)) (p : Params) (ic : Bool)
    (fs : List Frame) :
    (Stream.handleSeq dec p ic InState.fresh fs).1.finishSetCount ≤ countES fs ∧
    (countES fs ≤ 1 →
      (Stream.handleSeq dec p ic InState.fresh fs).1.finishSetCount ≤ 1) := by
  have h := handleSeq_finishSetCount_le dec p ic fs InState.fresh
  have h0 : InState.fresh.finishSetCount = 0 := rfl
  exact ⟨by omega, fun h1 => by omega⟩

/-- Witness for C8 (amended) on a single END_STREAM-carrying DATA frame. -/
theorem finish_future_set_at_most_once_witness :
    countES [⟨.DATA, 1, 1, []⟩] ≤ 1 ∧
      (Stream.handleSeq (fun _ => []) defaultParams false InState.fresh
        [⟨.DATA, 1, 1, []⟩]).1.finishSetCount ≤ 1 := by
  refine ⟨by decide, ?_⟩
  exact (finish_future_set_at_most_once_per_end_stream (fun _ => []) defaultParams
    false [⟨.DATA, 1, 1, []⟩]).2 (by decide)

/-! ## Connection: stream table, id allocation, dispatch loop body

The stream table `self.streams` is a Python dict keyed by stream id,
modelled as an insertion-ordered association list with overwrite-in-place
assignment. The transport writes and the delegate's `start_request` calls
are recorded as events. -/

/-- Python-dict assignment `d[k] = v`: overwrite in place when the key
exists, else append. -/
def dictInsert {β : Type} : List (Nat × β) → Nat → β → List (Nat × β)
  | [], k, v => [(k, v)]
  | (k', v') :: rest, k, v =>
    if k' = k then (k, v) :: rest else (k', v') :: dictInsert rest k v

theorem dictInsert_lookup_self {β : Type} (l : List (Nat × β)) (k : Nat)
    (v : β) : (dictInsert l k v).lookup k = some v := by
  induction l with
  | nil => simp [dictInsert, List.lookup]
  | cons kv rest ih =>
    obtain ⟨k', v'⟩ := kv
    by_cases h : k' = k
    · simp [dictInsert, h, List.lookup]
    · simp only [dictInsert, if_neg h, List.lookup]
      have hkk : (k == k') = false :=
        beq_eq_false_iff_ne.mpr fun he => h he.symm
      rw [hkk]
      exact ih

/-- Connection state: role, parameters, the stream table (ids to per-stream
inbound state) and the next locally allocated stream id. The HPACK encoder
and decoder instances are external collaborators. -/
structure ConnState where
  is_client : Bool
  params : Params
  streams : List (Nat × InState)
  next_stream_id : Nat
  deriving Repr, DecidableEq

/-- `Connection.__init__`: empty stream table; `next_stream_id` seeded to 1
for a client, 2 for a server. -/
def Connection.mkConn (is_client : Bool) (params : Params) : ConnState :=
  ⟨is_client, params, [], if is_client then 1 else 2⟩

/-- `Connection.create_stream`: build a `Stream` on `next_stream_id`,
advance the counter by 2, register the stream, return its id. -/
def Connection.create_stream (c : ConnState) : ConnState × Nat :=
  (⟨c.is_client, c.params, dictInsert c.streams c.next_stream_id InState.fresh,
    c.next_stream_id + 2⟩, c.next_stream_id)

/-- `create_stream` iterated `n` times. -/
def Connection.createN (c : ConnState) : Nat → ConnState
  | 0 => c
  | n + 1 => Connection.createN (Connection.create_stream c).1 n

/-- Observable actions of one dispatch-loop iteration. -/
inductive CEvent where
  | wrote (f : Frame)
  | start_request (sid : Nat)
  | stream_event (sid : Nat) (e : DEvent)
  deriving Repr, DecidableEq

/-- Exceptions escaping one dispatch-loop iteration. -/
inductive ConnErr where
  | duplicateStream (sid : Nat)
  | invalidStreamZeroFrame
  | missingStream (sid : Nat)
  | streamErr (e : StreamErr)
  deriving Repr, DecidableEq

/-- `Connection._settings_ack_frame`: SETTINGS, ACK flag, stream 0, empty
payload. -/
def Connection.settings_ack_frame : Frame :=
  ⟨.SETTINGS, FrameFlag.ACK, 0, []⟩

/-- `Connection._handle_settings_frame`: ignore a SETTINGS carrying ACK;
answer any other SETTINGS with one ACK frame. No received value is
applied. -/
def Connection.handle_settings_frame (c : ConnState) (f : Frame) :
    ConnState × List CEvent :=
  if f.flags &&& FrameFlag.ACK ≠ 0 then (c, [])
  else (c, [.wrote Connection.settings_ack_frame])

/-- `Connection.handle_frame` (stream-0 frames): SETTINGS handled,
WINDOW_UPDATE a no-op placeholder, anything else fatal. -/
def Connection.handle_frame (c : ConnState) (f : Frame) :
    Except ConnErr (ConnState × List CEvent) :=
  match f.type with
  | .SETTINGS => .ok (Connection.handle_settings_frame c f)
  | .WINDOW_UPDATE => .ok (c, [])
  | _ => .error .invalidStreamZeroFrame

/-- One dispatch-loop iteration's outcome: next connection state, events,
the escaping exception if any, and whether the bare `except:` clause closed
the transport before re-raising. -/
structure ConnStepResult where
  conn : ConnState
  events : List CEvent
  err : Option ConnErr
  closed : Bool
  deriving Repr, DecidableEq

/-- The body of `Connection._conn_loop` for one already-read frame: stream 0
goes to the connection-level handler; a HEADERS frame on a server connection
starts a new stream — fatal if the id is in the table, else the stream is
created, its delegate obtained from `delegate.start_request`, registered,
and the frame dispatched into it; any other frame is dispatched to the
stream looked up in the table. Any exception closes the transport
(`self.stream.close()`) and propagates. -/
def Connection.conn_loop_step (dec : List Nat → List (List Nat × List Nat))
    (c : ConnState) (f : Frame) : ConnStepResult :=
  if f.stream_id = 0 then
    match Connection.handle_frame c f with
    | .ok (c', evs) => ⟨c', evs, none, false⟩
    | .error e => ⟨c, [], some e, true⟩
  else if ¬c.is_client ∧ f.type = .HEADERS then
    if (c.streams.lookup f.stream_id).isSome then
      ⟨c, [], some (.duplicateStream f.stream_id), true⟩
    else
      match Stream.handle_frame dec c.params c.is_client InState.fresh f with
      | .error e =>
        -- the stream was registered before `handle_frame` raised
        ⟨⟨c.is_client, c.params, dictInsert c.streams f.stream_id InState.fresh,
            c.next_stream_id⟩,
          [.start_request f.stream_id], some (.streamErr e), true⟩
      | .ok (st', evs) =>
        ⟨⟨c.is_client, c.params, dictInsert c.streams f.stream_id st',
            c.next_stream_id⟩,
          .start_request f.stream_id :: evs.map (.stream_event f.stream_id),
          none, false⟩
  else
    match c.streams.lookup f.stream_id with
    | none => ⟨c, [], some (.missingStream f.stream_id), true⟩
    | some st =>
      match Stream.handle_frame dec c.params c.is_client st f with
      | .error e => ⟨c, [], some (.streamErr e), true⟩
      | .ok (st', evs) =>
        ⟨⟨c.is_client, c.params, dictInsert c.streams f.stream_id st',
            c.next_stream_id⟩,
          evs.map (.stream_event f.stream_id), none, false⟩

theorem createN_next_stream_id (c : ConnState) (n : Nat) :
    (Connection.createN c n).next_stream_id = c.next_stream_id + 2 * n := by
  induction n generalizing c with
  | zero => simp [Connection.createN]
  | succ n ih =>
    rw [Connection.createN, ih]
    dsimp only [Connection.create_stream]
    omega

/-- C5. Stream id allocation: on a fresh connection the Nth locally created
stream gets id `initial + 2*(N-1)` with `initial` 1 for a client and 2 for a
server, its parity is odd for a client and even for a server, and the new
stream is registered in the table under that id. -/
theorem stream_id_allocation (ic : Bool) (p : Params) (N : Nat) (hN : 1 ≤ N) :
    ((Connection.create_stream
        (Connection.createN (Connection.mkConn ic p) (N - 1))).2 =
      (if ic then 1 else 2) + 2 * (N - 1)) ∧
    ((Connection.create_stream
        (Connection.createN (Connection.mkConn ic p) (N - 1))).2 % 2 =
      (if ic then 1 else 0)) ∧
    ((Connection.create_stream
        (Connection.createN (Connection.mkConn ic p) (N - 1))).1.streams.lookup
      ((Connection.create_stream
        (Connection.createN (Connection.mkConn ic p) (N - 1))).2) =
      some InState.fresh) := by
  have hnext : (Connection.createN (Connection.mkConn ic p) (N - 1)).next_stream_id =
      (if ic then 1 else 2) + 2 * (N - 1) := by
    rw [createN_next_stream_id]
    simp [Connection.mkConn]
  refine ⟨hnext, ?_, ?_⟩
  · show (Connection.createN (Connection.mkConn ic p) (N - 1)).next_stream_id % 2 = _
    rw [hnext]
    by_cases hic : ic <;> simp [hic] <;> omega
  · show (dictInsert (Connection.createN (Connection.mkConn ic p) (N - 1)).streams
        (Connection.createN (Connection.mkConn ic p) (N - 1)).next_stream_id
        InState.fresh).lookup
      (Connection.createN (Connection.mkConn ic p) (N - 1)).next_stream_id =
      some InState.fresh
    exact dictInsert_lookup_self _ _ _

/-- Witness for C5: the 3rd stream of a fresh server connection has id 6. -/
theorem stream_id_allocation_witness :
    (1 ≤ 3 ∧
      (Connection.create_stream
        (Connection.createN (Connection.mkConn false defaultParams) (3 - 1))).2 =
          (if false then 1 else 2) + 2 * (3 - 1)) ∧
    (Connection.create_stream
      (Connection.createN (Connection.mkConn false defaultParams) (3 - 1))).2 = 6 := by
  refine ⟨⟨by norm_num, ?_⟩, rfl⟩
  exact (stream_id_allocation false defaultParams 3 (by norm_num)).1

/-- C4. Duplicate stream rejection in a server's dispatch loop: a HEADERS
frame for a nonzero stream id already in the table is a fatal connection
error (the transport is closed, the error propagates); for an absent id a
new stream is created, its delegate obtained via `start_request`, the
stream registered, and the frame dispatched into it. -/
theorem duplicate_stream_rejected
    (dec : List Nat → List (List Nat × List Nat)) (c : ConnState) (f : Frame)
    (hs : c.is_client = false) (ht : f.type = .HEADERS)
    (hnz : f.stream_id ≠ 0) :
    ((c.streams.lookup f.stream_id).isSome →
      Connection.conn_loop_step dec c f =
        ⟨c, [], some (.duplicateStream f.stream_id), true⟩) ∧
    (c.streams.lookup f.stream_id = none →
      ∀ (st' : InState) (evs : List DEvent),
        Stream.handle_frame dec c.params c.is_client InState.fresh f =
          .ok (st', evs) →
        Connection.conn_loop_step dec c f =
          ⟨⟨c.is_client, c.params, dictInsert c.streams f.stream_id st',
              c.next_stream_id⟩,
            .start_request f.stream_id :: evs.map (.stream_event f.stream_id),
            none, false⟩) := by
  constructor
  · intro hdup
    rw [Connection.conn_loop_step, if_neg hnz,
      if_pos (show ¬c.is_client ∧ f.type = .HEADERS from ⟨by simp [hs], ht⟩),
      if_pos hdup]
  · intro hnone st' evs hok
    rw [Connection.conn_loop_step, if_neg hnz,
      if_pos (show ¬c.is_client ∧ f.type = .HEADERS from ⟨by simp [hs], ht⟩),
      if_neg (by simp [hnone]), hok]

/-- Witness for C4: a HEADERS frame for stream id 1, already present in a
server connection's table, is rejected as a duplicate. -/
theorem duplicate_stream_rejected_witness :
    Connection.conn_loop_step decGET
        ⟨false, defaultParams, [(1, InState.fresh)], 2⟩ ⟨.HEADERS, 5, 1, []⟩ =
      ⟨⟨false, defaultParams, [(1, InState.fresh)], 2⟩, [],
        some (.duplicateStream 1), true⟩ :=
  (duplicate_stream_rejected decGET ⟨false, defaultParams, [(1, InState.fresh)], 2⟩
    ⟨.HEADERS, 5, 1, []⟩ rfl rfl (by norm_num)).1 (by decide)

/-- C6. Connection-level SETTINGS handling: a SETTINGS frame at stream 0
with the ACK flag set is ignored (nothing written, state unchanged); one
without the ACK flag is answered by exactly one SETTINGS frame with the ACK
flag, an empty payload and stream id 0, and none of the received values is
applied (state unchanged). -/
theorem settings_frame_handling
    (dec : List Nat → List (List Nat × List Nat)) (c : ConnState) (f : Frame)
    (ht : f.type = .SETTINGS) (hz : f.stream_id = 0) :
    (f.flags &&& FrameFlag.ACK ≠ 0 →
      Connection.conn_loop_step dec c f = ⟨c, [], none, false⟩) ∧
    (f.flags &&& FrameFlag.ACK = 0 →
      Connection.conn_loop_step dec c f =
        ⟨c, [.wrote ⟨.SETTINGS, FrameFlag.ACK, 0, []⟩], none, false⟩) := by
  obtain ⟨ft, ffl, fsid, fdata⟩ := f
  simp only at ht hz
  subst ht
  subst hz
  constructor
  · intro hack
    simp [Connection.conn_loop_step, Connection.handle_frame,
      Connection.handle_settings_frame, hack]
  · intro hack
    simp [Connection.conn_loop_step, Connection.handle_frame,
      Connection.handle_settings_frame, Connection.settings_ack_frame, hack]

/-- Witness for C6 on concrete ACK and non-ACK SETTINGS frames. -/
theorem settings_frame_handling_witness :
    Connection.conn_loop_step decGET (Connection.mkConn false defaultParams)
        ⟨.SETTINGS, 1, 0, []⟩ =
      ⟨Connection.mkConn false defaultParams, [], none, false⟩ ∧
    Connection.conn_loop_step decGET (Connection.mkConn false defaultParams)
        ⟨.SETTINGS, 0, 0, []⟩ =
      ⟨Connection.mkConn false defaultParams,
        [.wrote ⟨.SETTINGS, FrameFlag.ACK, 0, []⟩], none, false⟩ := by
  constructor
  · exact (settings_frame_handling decGET (Connection.mkConn false defaultParams)
      ⟨.SETTINGS, 1, 0, []⟩ rfl rfl).1 (by decide)
  · exact (settings_frame_handling decGET (Connection.mkConn false defaultParams)
      ⟨.SETTINGS, 0, 0, []⟩ rfl rfl).2 (by decide)

end TornadoHttp2
